import Mathlib

/-!
# ROS bridge: outbound write queue and event bridge

A shallow embedding of `src/src/websocket_session.cpp` (the write scheduler of
`websocket_session`) and of the event handlers of `src/src/rosBridge.cpp`.

Modelling conventions
* A handler is a function from the state before the call to the state after it.
  `on_write` holds `qmutex` for its whole body and is one step.  `do_write` tests
  `write_scheduled` before it takes `qmutex`, and its second branch takes no lock: it is
  two steps, the test and the branch, and other handlers and callers can run in between
  (`RaceEvent`, `RaceState`).  `SessionEvent` and `websocket_session.run` describe the
  schedules in which the two steps of every call are adjacent.
* `ws_.async_write` is an effect on the connection.  It is recorded in two
  fields of the session: `wire`, the messages handed to `async_write` in call
  order, and `outstanding`, the number of `async_write` operations whose
  completion handler has not run yet.
* `wire` holds each message as it is at the time of the `async_write` call; the lifetime
  of the buffer handed to `async_write` is not modelled.
* The plog macros append an entry to a `log` field.
* The JSON and XML parsers are libraries outside the repository.  A handler that parses
  its argument takes the parsed document as a second argument; the queries it makes on
  the document follow the preconditions of rapidjson and tinyxml2.
* A handler that can abort, throw or go through a null pointer returns `Except Failure`.
-/

namespace RosBridge

/-! ## Logging -/

/-- Severity of a plog record, as used by `LOG_DEBUG`, `LOG_INFO`, `LOG_ERROR`. -/
inductive Severity
  | debug
  | info
  | error
deriving DecidableEq, Repr

/-- One record written through a `LOG_*` macro. -/
structure LogEntry where
  severity : Severity
  text : String
deriving DecidableEq, Repr

/-! ## websocket_session.cpp -/

/-- The cases of `boost::system::error_code` that the session tells apart. -/
inductive ErrorKind
  | none
  | operation_aborted
  | closed
  | eof
  | other
deriving DecidableEq, Repr

/-- An `error_code`: its kind and the text of `ec.message()`. -/
structure error_code where
  kind : ErrorKind
  message : String
deriving DecidableEq, Repr

/-- The conversion `if(ec)`: true when the code reports an error. -/
def error_code.failed (ec : error_code) : Bool :=
  ec.kind != ErrorKind.none

/-- The members of `websocket_session` that the write path reads or writes,
together with the record of the connection (`wire`, `outstanding`). -/
structure websocket_session where
  message_queue : List String
  write_scheduled : Bool
  verbose_ : Bool
  wire : List String
  outstanding : Nat
  log : List LogEntry
deriving DecidableEq, Repr

/-- A session as the constructor and the member initialisers leave it. -/
def websocket_session.new : websocket_session :=
  { message_queue := [], write_scheduled := false, verbose_ := false,
    wire := [], outstanding := 0, log := [] }

/-- Append a record to the log of the session. -/
def websocket_session.logMsg (s : websocket_session) (sev : Severity) (text : String) :
    websocket_session :=
  { s with log := s.log ++ [{ severity := sev, text := text }] }

/-- The call `ws_.async_write(net::buffer(message), on_write)`: the message goes to the
connection and one more write is outstanding. -/
def websocket_session.async_write (s : websocket_session) (message : String) :
    websocket_session :=
  { s with wire := s.wire ++ [message], outstanding := s.outstanding + 1 }

/-- Model of `websocket_session::set_verbose`. -/
def websocket_session.set_verbose (s : websocket_session) (flag : Bool) : websocket_session :=
  { s with verbose_ := flag }

/-- Model of `websocket_session::fail`: it only reports. -/
def websocket_session.fail (s : websocket_session) (ec : error_code) (what : String) :
    websocket_session :=
  if ec.kind = ErrorKind.operation_aborted then
    s.logMsg Severity.error (what ++ " operation aborted: " ++ ec.message)
  else if ec.kind = ErrorKind.closed then
    s.logMsg Severity.error (what ++ " websocket closed: " ++ ec.message)
  else
    s.logMsg Severity.error (what ++ ": " ++ ec.message)

/-- The first step of `websocket_session::do_write`: the test `if (!write_scheduled)`.
The source makes it before `qmutex` is taken, so the answer can be out of date when the
branch it selects runs. -/
def websocket_session.do_write_test (s : websocket_session) : Bool :=
  !s.write_scheduled

/-- The second step of `websocket_session::do_write`: the branch that the test selected,
run on the session as it is by then.  The first branch runs under `qmutex`; the second
branch takes no lock. -/
def websocket_session.do_write_act (s : websocket_session) (message : String)
    (idle : Bool) : websocket_session :=
  if idle then
    { s.async_write message with write_scheduled := true }
  else
    let s1 := { s with message_queue := s.message_queue ++ [message] }
    if s1.verbose_ then
      s1.logMsg Severity.debug
        ("websocket queuing message. Queue size: " ++ toString s1.message_queue.length)
    else s1

/-- Model of a call of `websocket_session::do_write` during which no other handler or
caller touches the session: the test, followed at once by the branch it selects.  Calls
that overlap other handlers are the subject of `RaceEvent`. -/
def websocket_session.do_write (s : websocket_session) (message : String) :
    websocket_session :=
  s.do_write_act message s.do_write_test

/-- Model of `websocket_session::on_write`. -/
def websocket_session.on_write (s : websocket_session) (ec : error_code)
    (bytes_transferred : Nat) : websocket_session :=
  if ec.failed then s.fail ec "write"
  else
    let s1 :=
      if s.verbose_ then
        s.logMsg Severity.debug
          ("websocket message written: " ++ toString bytes_transferred
            ++ "bytes. queue size: " ++ toString s.message_queue.length)
      else s
    let s2 := { s1 with write_scheduled := false }
    match s2.message_queue with
    | [] => s2
    | message :: rest =>
      let s3 := { s2 with message_queue := rest }
      let s4 :=
        if s3.verbose_ then s3.logMsg Severity.debug "websocket writing message from queue"
        else s3
      { s4.async_write message with write_scheduled := true }

/-- The reactor delivers the completion of an outstanding write: the operation is no
longer outstanding and `on_write` runs.  There is nothing to deliver when no write is
outstanding. -/
def websocket_session.complete (s : websocket_session) (ec : error_code)
    (bytes_transferred : Nat) : Option websocket_session :=
  if s.outstanding = 0 then none
  else some (({ s with outstanding := s.outstanding - 1 }).on_write ec bytes_transferred)

/-- What can happen to the write path of a session when every call of `do_write` runs
without another handler or caller in between. -/
inductive SessionEvent
  | call_do_write (message : String)
  | completion (ec : error_code) (bytes_transferred : Nat)
deriving DecidableEq, Repr

/-- One event applied to a session. -/
def websocket_session.step (s : websocket_session) : SessionEvent → Option websocket_session
  | SessionEvent.call_do_write message => some (s.do_write message)
  | SessionEvent.completion ec n => s.complete ec n

/-- A sequence of events applied in order; `none` when a completion is delivered while
no write is outstanding. -/
def websocket_session.run (s : websocket_session) : List SessionEvent → Option websocket_session
  | [] => some s
  | e :: es =>
    match s.step e with
    | none => none
    | some s1 => s1.run es

/-- The messages passed to `do_write` in a sequence of events, in call order. -/
def SessionEvent.enqueued : List SessionEvent → List String
  | [] => []
  | SessionEvent.call_do_write message :: es => message :: SessionEvent.enqueued es
  | SessionEvent.completion _ _ :: es => SessionEvent.enqueued es

/-- The number of write completions in a sequence of events. -/
def SessionEvent.completions : List SessionEvent → Nat
  | [] => 0
  | SessionEvent.call_do_write _ :: es => SessionEvent.completions es
  | SessionEvent.completion _ _ :: es => SessionEvent.completions es + 1

/-- Every completion in the sequence reports success. -/
def SessionEvent.allSucceed : List SessionEvent → Bool
  | [] => true
  | SessionEvent.call_do_write _ :: es => SessionEvent.allSucceed es
  | SessionEvent.completion ec _ :: es => !ec.failed && SessionEvent.allSucceed es

/-- A sequence of events that can occur when `pending` messages were handed to `do_write`
and not completed before it: every completion answers a message handed over earlier. -/
def SessionEvent.realisable : Nat → List SessionEvent → Bool
  | _, [] => true
  | pending, SessionEvent.call_do_write _ :: es => SessionEvent.realisable (pending + 1) es
  | pending, SessionEvent.completion _ _ :: es =>
    decide (0 < pending) && SessionEvent.realisable (pending - 1) es

/-- A call of `do_write` that has tested `write_scheduled` and has not yet run the branch
the test selected: who calls, with which message, and what the test answered. -/
structure PendingCall where
  caller : Nat
  message : String
  idle : Bool
deriving DecidableEq, Repr

/-- What can happen to the write path of a session, at the grain that the locking in
`do_write` leaves: a caller (a thread) enters `do_write` and tests the flag, a caller runs
the branch its test selected, or the reactor delivers a write completion. -/
inductive RaceEvent
  | test (caller : Nat) (message : String)
  | act (caller : Nat)
  | completion (ec : error_code) (bytes_transferred : Nat)
deriving DecidableEq, Repr

/-- A session together with the calls of `do_write` that are between their two steps. -/
structure RaceState where
  session : websocket_session
  pending : List PendingCall
deriving DecidableEq, Repr

/-- One event applied; `none` when the event cannot occur: a caller that is inside
`do_write` cannot enter it again, only a caller inside `do_write` can run a branch, and a
completion needs an outstanding write. -/
def RaceState.step (st : RaceState) : RaceEvent → Option RaceState
  | RaceEvent.test caller message =>
    if st.pending.any (fun call => call.caller == caller) then none
    else some { st with pending :=
      st.pending ++ [{ caller := caller, message := message,
                       idle := st.session.do_write_test }] }
  | RaceEvent.act caller =>
    match st.pending.find? (fun call => call.caller == caller) with
    | none => none
    | some call =>
      some { session := st.session.do_write_act call.message call.idle,
             pending := st.pending.filter (fun other => other.caller != caller) }
  | RaceEvent.completion ec n =>
    match st.session.complete ec n with
    | none => none
    | some session => some { st with session := session }

/-- A sequence of events applied in order. -/
def RaceState.run (st : RaceState) : List RaceEvent → Option RaceState
  | [] => some st
  | e :: es =>
    match st.step e with
    | none => none
    | some st1 => st1.run es

/-- The messages passed to `do_write` in a sequence of events, in the order of the
calls. -/
def RaceEvent.called : List RaceEvent → List String
  | [] => []
  | RaceEvent.test _ message :: es => message :: RaceEvent.called es
  | _ :: es => RaceEvent.called es

/-- The number of write completions in a sequence of events. -/
def RaceEvent.completions : List RaceEvent → Nat
  | [] => 0
  | RaceEvent.completion _ _ :: es => RaceEvent.completions es + 1
  | _ :: es => RaceEvent.completions es

/-- Every completion in the sequence reports success. -/
def RaceEvent.allSucceed : List RaceEvent → Bool
  | [] => true
  | RaceEvent.completion ec _ :: es => !ec.failed && RaceEvent.allSucceed es
  | _ :: es => RaceEvent.allSucceed es

/-- The schedule in which every call of `do_write` runs its two steps back to back. -/
def RaceEvent.serialise : List SessionEvent → List RaceEvent
  | [] => []
  | SessionEvent.call_do_write message :: es =>
    RaceEvent.test 0 message :: RaceEvent.act 0 :: RaceEvent.serialise es
  | SessionEvent.completion ec n :: es =>
    RaceEvent.completion ec n :: RaceEvent.serialise es

/-- What a write completion is said to do on every outcome, for the session `s` on which
`on_write` runs: the flag ends cleared when nothing is pending, and otherwise the head of
the queue is removed and handed to the connection with the flag set. -/
def OnWriteDrains (s : websocket_session) (ec : error_code) (n : Nat) : Prop :=
  (s.on_write ec n).write_scheduled = !s.message_queue.isEmpty ∧
  (s.on_write ec n).message_queue = s.message_queue.tail ∧
  (s.on_write ec n).wire = s.wire ++ s.message_queue.take 1

instance OnWriteDrains.decidable (s : websocket_session) (ec : error_code) (n : Nat) :
    Decidable (OnWriteDrains s ec n) := by
  unfold OnWriteDrains
  exact inferInstance

/-- The relation between the flag, the queue and the connection that holds while every
completion reports success. -/
def QueueInv (s : websocket_session) : Prop :=
  (s.write_scheduled = false → s.message_queue = [] ∧ s.outstanding = 0) ∧
  (s.write_scheduled = true → s.outstanding = 1)

/-- At most one write is outstanding, and an outstanding write is reflected by the flag. -/
def SingleFlight (s : websocket_session) : Prop :=
  s.outstanding ≤ 1 ∧ (s.outstanding = 1 → s.write_scheduled = true)

/-! ## rosBridge.cpp -/

/-- A `std::map<std::string, std::string>` as its list of entries, one per key.  The
bridge never iterates over the map, so the order of the entries is not observed. -/
abbrev StringMap := List (String × String)

/-- The lookup `m.find(key)`: the stored value, or `none` when the key has no entry. -/
def StringMap.find (m : StringMap) (key : String) : Option String :=
  List.lookup key m

/-- The map after evaluating `m[key]`: `operator[]` adds an entry holding the empty
string when the key has none. -/
def StringMap.subscript (m : StringMap) (key : String) : StringMap :=
  match m.find key with
  | some _ => m
  | none => m ++ [(key, "")]

/-- The string that `m[key]` refers to. -/
def StringMap.valueAt (m : StringMap) (key : String) : String :=
  ((m.subscript key).find key).getD ""

/-- The map after `m[key] = value`. -/
def StringMap.assign (m : StringMap) (key value : String) : StringMap :=
  (m.subscript key).map (fun entry => if entry.1 == key then (key, value) else entry)

/-- The map after `m.clear()`. -/
def StringMap.clear (_m : StringMap) : StringMap := []

/-- A `double` as far as the bridge looks at it: the result of `std::isnan`, of
`std::to_string`, of the `std::fixed` stream output with precision 1, and of the default
stream output used in log lines.  Floating-point arithmetic is not modelled. -/
structure Double where
  isnan : Bool
  to_string : String
  fixed1 : String
  shown : String
deriving DecidableEq, Repr

/-- The two fields of `AMM::PhysiologyValue` that the bridge reads. -/
structure PhysiologyValue where
  name : String
  value : Double
deriving DecidableEq, Repr

/-- The enumeration `AMM::ControlType`. -/
inductive ControlType
  | RUN
  | HALT
  | RESET
  | SAVE
deriving DecidableEq, Repr

/-- The global variables of `rosBridge.cpp` that the handlers read or write, with
`arguments.verbose`, the function-local static `printRRdata` and the log. -/
structure Bridge where
  nodeDataStorage : StringMap
  sim_status : Int
  lastTick : Int
  ws_session : websocket_session
  try_reconnect : Bool
  websocket_connected : Bool
  ros_initialized : Bool
  verbose : Bool
  printRRdata : Bool
  log : List LogEntry
deriving DecidableEq, Repr

/-- The initial value of `nodeDataStorage`. -/
def nodeDataStorage_init : StringMap :=
  [("Cardiovascular_HeartRate", "0"),
   ("Cardiovascular_Arterial_Systolic_Pressure", "0"),
   ("Cardiovascular_Arterial_Diastolic_Pressure", "0"),
   ("BloodChemistry_Oxygen_Saturation", "0"),
   ("Respiration_EndTidalCarbonDioxide", "0"),
   ("Respiratory_Respiration_Rate", "0"),
   ("Energy_Core_Temperature", "0"),
   ("SIM_TIME", "0")]

/-- The globals as their initialisers leave them. -/
def Bridge.new (verbose : Bool) : Bridge :=
  { nodeDataStorage := nodeDataStorage_init, sim_status := 0, lastTick := 0,
    ws_session := websocket_session.new, try_reconnect := true,
    websocket_connected := false, ros_initialized := false,
    verbose := verbose, printRRdata := true, log := [] }

/-- Append a record to the log of the bridge. -/
def Bridge.logMsg (b : Bridge) (sev : Severity) (text : String) : Bridge :=
  { b with log := b.log ++ [{ severity := sev, text := text }] }

/-- The string literal of `writeTestPacket`. -/
def testPacketMessage : String :=
  "\x7b\"op\":\"publish\",\"topic\":\"/hr/control/speech/say\",\"msg\": \x7b\"text\": \"Greetings from MoHSES\"\x7d\x7d"

/-- The string that `writePhysDataPacket` builds around the heart-rate entry. -/
def physDataPacketMessage (heartRate : String) : String :=
  "\x7b\"op\":\"publish\",\"topic\":\"/hr/control/speech/say\",\"msg\": \x7b\"text\": \"My heart rate is "
    ++ heartRate ++ " bpm.\"\x7d\x7d"

/-- Model of `writeTestPacket`. -/
def writeTestPacket (b : Bridge) : Bridge :=
  let message := testPacketMessage
  let b1 := b.logMsg Severity.debug ("Writing message to ROS: " ++ message)
  { b1 with ws_session := b1.ws_session.do_write message }

/-- Model of `writePhysDataPacket`.  Reading `nodeDataStorage["Cardiovascular_HeartRate"]`
goes through `operator[]`. -/
def writePhysDataPacket (b : Bridge) : Bridge :=
  let message := physDataPacketMessage (b.nodeDataStorage.valueAt "Cardiovascular_HeartRate")
  let b1 := { b with nodeDataStorage := b.nodeDataStorage.subscript "Cardiovascular_HeartRate" }
  let b2 := b1.logMsg Severity.debug ("Writing message to ROS: " ++ message)
  { b2 with ws_session := b2.ws_session.do_write message }

/-- Model of `onWebsocketHandshake`. -/
def onWebsocketHandshake (b : Bridge) (_body : String) : Bridge :=
  writeTestPacket { b with websocket_connected := true }

/-- Model of `OnNewSimulationControl`; the argument is `simControl.type()`. -/
def OnNewSimulationControl (b : Bridge) : ControlType → Bridge
  | ControlType.RUN =>
    ({ b with sim_status := 1 }).logMsg Severity.info "SimControl Message recieved; Run sim."
  | ControlType.HALT =>
    ({ b with sim_status := 2 }).logMsg Severity.info "SimControl Message recieved; Halt sim."
  | ControlType.RESET =>
    ({ b with nodeDataStorage := b.nodeDataStorage.clear, sim_status := 0 }).logMsg
      Severity.info "SimControl Message recieved; Reset sim."
  | ControlType.SAVE => b

/-- Model of `OnNewTick`; the argument is `tick.frame()`.  The empty statement guarded by
`websocket_connected && ros_initialized` has no effect and is left out.  Frame numbers are
64-bit integers in the source; they are only compared and copied, so `Int` stands for
them. -/
def OnNewTick (b : Bridge) (frame : Int) : Bridge :=
  let b1 :=
    if b.sim_status == 0 && decide (frame > b.lastTick) then
      let b2 := b.logMsg Severity.debug
        ("Tick received! sim_status:" ++ toString b.sim_status ++ "->1 lastTick:"
          ++ toString b.lastTick ++ " tick.frame(): " ++ toString frame)
      { b2 with sim_status := 1 }
    else b
  { b1 with lastTick := frame }

/-- Model of `OnPhysiologyValue`. -/
def OnPhysiologyValue (b : Bridge) (physiologyvalue : PhysiologyValue) : Bridge :=
  let b1 :=
    if !physiologyvalue.value.isnan then
      let b2 := { b with nodeDataStorage :=
        b.nodeDataStorage.assign physiologyvalue.name physiologyvalue.value.to_string }
      if physiologyvalue.name == "SIM_TIME" then
        let b3 := { b2 with nodeDataStorage :=
          b2.nodeDataStorage.assign "SIM_TIME" physiologyvalue.value.fixed1 }
        if b3.websocket_connected then writePhysDataPacket b3 else b3
      else b2
    else b
  if physiologyvalue.name == "Respiratory_Respiration_Rate" then
    if b1.verbose && b1.printRRdata then
      { b1.logMsg Severity.debug
          ("[AMM_Node_Data] Respiratory_Respiration_Rate" ++ "=" ++ physiologyvalue.value.shown)
        with printRRdata := false }
    else b1
  else b1

/-- The events that the middleware and the session deliver to the bridge. -/
inductive BridgeEvent
  | physiologyValue (physiologyvalue : PhysiologyValue)
  | tick (frame : Int)
  | simulationControl (type : ControlType)
  | handshake (body : String)
deriving DecidableEq, Repr

/-- One event handed to its registered handler. -/
def Bridge.handle (b : Bridge) : BridgeEvent → Bridge
  | BridgeEvent.physiologyValue pv => OnPhysiologyValue b pv
  | BridgeEvent.tick frame => OnNewTick b frame
  | BridgeEvent.simulationControl type => OnNewSimulationControl b type
  | BridgeEvent.handshake body => onWebsocketHandshake b body

/-- A sequence of events handled in arrival order. -/
def Bridge.handleAll (b : Bridge) (events : List BridgeEvent) : Bridge :=
  events.foldl Bridge.handle b

/-- The number of messages handed to `do_write` so far that were written or are pending. -/
def Bridge.submitted (b : Bridge) : Nat :=
  b.ws_session.wire.length + b.ws_session.message_queue.length

/-- The watermark after each tick of a sequence, in order. -/
def tickTrace (b : Bridge) : List Int → List Int
  | [] => []
  | frame :: frames => (OnNewTick b frame).lastTick :: tickTrace (OnNewTick b frame) frames

/-- The state after a sequence of ticks. -/
def tickAll (b : Bridge) (frames : List Int) : Bridge :=
  frames.foldl OnNewTick b

/-- A telemetry update that the sim-time rule forwards: it is for `SIM_TIME` and its
value is not NaN. -/
def PhysiologyValue.isSimTimeReport (pv : PhysiologyValue) : Bool :=
  pv.name == "SIM_TIME" && !pv.value.isnan

/-- The state after a sequence of telemetry updates, handled in arrival order. -/
def telemetryAll (b : Bridge) (updates : List PhysiologyValue) : Bridge :=
  updates.foldl OnPhysiologyValue b

/-- The text shared by the two outbound messages up to the start of the spoken text: the
`publish` operation and the topic. -/
def publishEnvelopeHead : String :=
  "\x7b\"op\":\"publish\",\"topic\":\"/hr/control/speech/say\",\"msg\": \x7b\"text\": \""

/-- Each number of the list is at most the next one. -/
def nondecreasing : List Int → Bool
  | [] => true
  | [_] => true
  | a :: b :: rest => decide (a ≤ b) && nondecreasing (b :: rest)

/-- The watermark never decreases from one tick of the sequence to the next, and after
the sequence it is the highest frame number of the sequence. -/
def WatermarkMonotone (b : Bridge) (frames : List Int) : Prop :=
  nondecreasing (tickTrace b frames) = true ∧
  (∀ f ∈ frames, f ≤ (tickAll b frames).lastTick) ∧
  (frames ≠ [] → (tickAll b frames).lastTick ∈ frames)

instance WatermarkMonotone.decidable (b : Bridge) (frames : List Int) :
    Decidable (WatermarkMonotone b frames) := by
  unfold WatermarkMonotone
  exact inferInstance

/-- The sequence contains no telemetry update for the channel `c`. -/
def BridgeEvent.noUpdateFor (c : String) : List BridgeEvent → Bool
  | [] => true
  | BridgeEvent.physiologyValue pv :: es => pv.name != c && BridgeEvent.noUpdateFor c es
  | _ :: es => BridgeEvent.noUpdateFor c es

/-! ## Inbound handlers -/

/-- The ways in which a handler can fail to return to its caller. -/
inductive Failure
  | assertion (what : String)
  | null_pointer (what : String)
  | exception (what : String)
deriving DecidableEq, Repr

/-- A JSON value as rapidjson holds it.  A number is kept as its text. -/
inductive JsonValue
  | null
  | bool (value : Bool)
  | number (text : String)
  | string (value : String)
  | array (items : List JsonValue)
  | object (members : List (String × JsonValue))

/-- The state of a fresh `rapidjson::Document` after `document.Parse(text)`: the root
value of the text, or the `null` value the document started with when the text is not
valid JSON (`parsed = none`). -/
def Document.afterParse (parsed : Option JsonValue) : JsonValue :=
  parsed.getD JsonValue.null

/-- The query `value.IsString()`. -/
def JsonValue.IsString : JsonValue → Bool
  | JsonValue.string _ => true
  | _ => false

/-- The query `value.HasMember(name)`.  rapidjson requires `IsObject()` and checks it
with `RAPIDJSON_ASSERT`. -/
def JsonValue.HasMember (v : JsonValue) (name : String) : Except Failure Bool :=
  match v with
  | JsonValue.object members => Except.ok (List.lookup name members).isSome
  | _ => Except.error (Failure.assertion "IsObject()")

/-- The access `value[name]`: the first member of that name.  rapidjson requires
`IsObject()` and an existing member and checks both with `RAPIDJSON_ASSERT`. -/
def JsonValue.member (v : JsonValue) (name : String) : Except Failure JsonValue :=
  match v with
  | JsonValue.object members =>
    match List.lookup name members with
    | some value => Except.ok value
    | none => Except.error (Failure.assertion "member not found")
  | _ => Except.error (Failure.assertion "IsObject()")

/-- A `std::string` assigned from a C string: the characters before the first NUL. -/
def cString (text : String) : String :=
  String.mk (text.data.takeWhile (fun ch => ch != Char.ofNat 0))

/-- The call `value.GetString()` assigned to a `std::string`.  rapidjson requires
`IsString()` and checks it with `RAPIDJSON_ASSERT`. -/
def JsonValue.GetString : JsonValue → Except Failure String
  | JsonValue.string value => Except.ok (cString value)
  | _ => Except.error (Failure.assertion "IsString()")

/-- The text of the anomaly record of `onNewWebsocketMessage`. -/
def noTypeLogEntry (body : String) : LogEntry :=
  { severity := Severity.error, text := "ROS message (no type): " ++ body }

/-- Model of `onNewWebsocketMessage`.  `parsed` is what the JSON text of `body` denotes,
`none` when `body` is not valid JSON; the parser itself is not modelled. -/
def onNewWebsocketMessage (b : Bridge) (body : String) (parsed : Option JsonValue) :
    Except Failure Bridge :=
  let document := Document.afterParse parsed
  match document.HasMember "type" with
  | Except.error failure => Except.error failure
  | Except.ok hasType =>
    match (if hasType then (document.member "type").map JsonValue.IsString
           else Except.ok false) with
    | Except.error failure => Except.error failure
    | Except.ok true =>
      match (document.member "type").bind JsonValue.GetString with
      | Except.error failure => Except.error failure
      | Except.ok type =>
        if type == "ros_topic" then
          Except.ok (b.logMsg Severity.debug "ros message: \x7b\"type\": \"ros_topic\", ...\x7d")
        else
          Except.ok (b.logMsg Severity.debug ("ROS message: " ++ body))
    | Except.ok false =>
      Except.ok (b.logMsg Severity.error ("ROS message (no type): " ++ body))

/-- A node of a document parsed by tinyxml2: an element with its attributes and child
nodes, a text node, or a node of another kind (comment, declaration, unknown). -/
inductive XMLNode
  | element (name : String) (attributes : List (String × String)) (children : List XMLNode)
  | text (value : String)
  | other

/-- The state of a `tinyxml2::XMLDocument` after `doc.Parse(text)`: the error code, 0 on
success, and the top-level nodes.  The parser itself is not modelled. -/
structure XMLDocument where
  errorID : Nat
  children : List XMLNode

/-- The node is an element with the given name. -/
def XMLNode.isElementNamed (name : String) : XMLNode → Bool
  | XMLNode.element n _ _ => n == name
  | _ => false

/-- The call `FirstChildElement(name)` on a node with the given children: the first child
element of that name, or the null pointer (`none`). -/
def FirstChildElement (children : List XMLNode) (name : String) : Option XMLNode :=
  children.find? (XMLNode.isElementNamed name)

/-- The child nodes of a node. -/
def XMLNode.children : XMLNode → List XMLNode
  | XMLNode.element _ _ children => children
  | _ => []

/-- The call `element->Attribute(name)`: the value of the attribute, or the null pointer
(`none`) when the element has no attribute of that name. -/
def XMLNode.Attribute : XMLNode → String → Option String
  | XMLNode.element _ attributes _, name => List.lookup name attributes
  | _, _ => none

/-- The call `element->GetText()`: the text of the first child when that is a text node,
and the null pointer (`none`) otherwise. -/
def XMLNode.GetText (node : XMLNode) : Option String :=
  match node.children with
  | XMLNode.text value :: _ => some value
  | _ => none

/-- The call `boost::algorithm::to_lower` in the classic locale. -/
def to_lower (text : String) : String :=
  String.mk (text.data.map Char.toLower)

/-- Model of `OnNewPhysiologyModification`.  `data` is `physMod.data()` and `doc` the
document that `doc.Parse` makes of it.  `stod` stands for `std::stod`, which returns the
number or throws (`std::invalid_argument` when no conversion can be performed,
`std::out_of_range`).  Both branches of the `while (pRoot)` body return, so the body runs
at most once.  Building a `std::string` from a null pointer and calling a member through a
null pointer do not return. -/
def OnNewPhysiologyModification (stod : String → Except Failure Double) (b : Bridge)
    (data : String) (doc : XMLDocument) : Except Failure Bridge :=
  if doc.errorID == 0 then
    match FirstChildElement doc.children "PhysiologyModification" with
    | none => Except.ok b
    | some pRoot =>
      match pRoot.Attribute "type" with
      | none => Except.error (Failure.null_pointer "std::string pmType = Attribute(\"type\")")
      | some typeAttr =>
        let pmType := to_lower typeAttr
        if pmType == "airwayobstruction" then
          match FirstChildElement pRoot.children "Severity" with
          | none => Except.error (Failure.null_pointer "FirstChildElement(\"Severity\")->ToElement()")
          | some severity =>
            match severity.GetText with
            | none => Except.error (Failure.null_pointer "std::stod(GetText())")
            | some text =>
              match stod text with
              | Except.error failure => Except.error failure
              | Except.ok pmSev =>
                Except.ok (b.logMsg Severity.info
                  ("Physiology Modification received: AirwayObstruction. Severity:"
                    ++ pmSev.shown))
        else
          Except.ok (b.logMsg Severity.debug
            ("Physiology Modification received:\n" ++ "Type:      " ++ pmType ++ "\n"
              ++ "Data:      " ++ data))
  else Except.ok b

/-! ## The reconnect loop of main -/

/-- The two things the reconnect loop does that its policy is about: starting a
connection attempt (`ws_session->run`) and waiting (`sleep_for(seconds(5))`). -/
inductive MainStep
  | attempt
  | delay
deriving DecidableEq, Repr

/-- When the key press that `checkForExit` waits for arrives during one pass of the
loop. -/
inductive ExitKey
  | not_pressed
  | during_run
  | during_sleep
deriving DecidableEq, Repr

/-- What happens around the main thread during one pass of the loop: the bridge events
handled while `ioc.run()` blocks, and the key press.  Write completions touch only the
session, which the loop does not read, and are left out. -/
structure Pass where
  events : List BridgeEvent
  exitKey : ExitKey
deriving DecidableEq, Repr

/-- The globals together with the record of what the loop has done so far. -/
structure MainState where
  bridge : Bridge
  steps : List MainStep
deriving DecidableEq, Repr

/-- Model of `checkForExit` after the key press: the flag is cleared and `ioc.stop()`
makes a blocked `ioc.run()` return. -/
def checkForExit (b : Bridge) : Bridge :=
  { b with try_reconnect := false }

/-- The body of `while (try_reconnect)` in `main`, run once. -/
def reconnectPass (st : MainState) (pass : Pass) : MainState :=
  let steps1 := st.steps ++ [MainStep.attempt]
  let b1 := { st.bridge with ws_session := st.bridge.ws_session.set_verbose st.bridge.verbose }
  let b2 := b1.logMsg Severity.info "Connecting to ROS instance."
  let b3 := b2.handleAll pass.events
  let b4 := if pass.exitKey = ExitKey.during_run then checkForExit b3 else b3
  let b5 := b4.logMsg Severity.info "Connection to ROS instance closed."
  let b6 := { b5 with websocket_connected := false, ros_initialized := false }
  let steps2 := steps1 ++ [MainStep.delay]
  let b7 := if pass.exitKey = ExitKey.during_sleep then checkForExit b6 else b6
  { bridge := b7, steps := steps2 }

/-- The loop `while (try_reconnect)` of `main` over the passes that the surroundings
offer; `none` when the passes are used up while the flag is still set, that is, while the
loop is still going. -/
def reconnectLoop : List Pass → MainState → Option MainState
  | [], st => if st.bridge.try_reconnect then none else some st
  | pass :: rest, st =>
    if st.bridge.try_reconnect then reconnectLoop rest (reconnectPass st pass) else some st

/-- The record of `n` passes: each is one attempt followed by one delay. -/
def passSteps : Nat → List MainStep
  | 0 => []
  | n + 1 => MainStep.attempt :: MainStep.delay :: passSteps n

/-- No pass of the list sees the key press. -/
def Pass.allQuiet (passes : List Pass) : Bool :=
  passes.all (fun pass => pass.exitKey == ExitKey.not_pressed)

/-! ## Schedules with overlapping calls -/

/-- A schedule of one caller and the reactor: message A is written; the call for B tests
the flag while A is in flight; the completion of A runs before that call pushes B; then C
is handed over and all writes complete. -/
def reorderSchedule : List RaceEvent :=
  [RaceEvent.test 1 "A", RaceEvent.act 1,
   RaceEvent.test 1 "B", RaceEvent.completion ⟨ErrorKind.none, ""⟩ 1, RaceEvent.act 1,
   RaceEvent.test 1 "C", RaceEvent.act 1,
   RaceEvent.completion ⟨ErrorKind.none, ""⟩ 1, RaceEvent.completion ⟨ErrorKind.none, ""⟩ 1]

/-- A schedule of two callers: the handshake callback hands over the greeting and a
telemetry callback hands over a report, and both test the flag of an idle session before
either runs its branch. -/
def doubleWriteSchedule : List RaceEvent :=
  [RaceEvent.test 0 testPacketMessage, RaceEvent.test 1 (physDataPacketMessage "0"),
   RaceEvent.act 0, RaceEvent.act 1]

/-! ## The outbound queue -/

theorem do_write_idle (s : websocket_session) (m : String) (h : s.write_scheduled = false) :
    (s.do_write m).wire = s.wire ++ [m] ∧ (s.do_write m).message_queue = s.message_queue ∧
    (s.do_write m).outstanding = s.outstanding + 1 ∧ (s.do_write m).write_scheduled = true := by
  simp [websocket_session.do_write, websocket_session.do_write_act,
    websocket_session.do_write_test, websocket_session.async_write, h]

theorem do_write_busy (s : websocket_session) (m : String) (h : s.write_scheduled = true) :
    (s.do_write m).wire = s.wire ∧ (s.do_write m).message_queue = s.message_queue ++ [m] ∧
    (s.do_write m).outstanding = s.outstanding ∧ (s.do_write m).write_scheduled = true := by
  unfold websocket_session.do_write websocket_session.do_write_act
    websocket_session.do_write_test
  simp only [h, Bool.not_true, Bool.false_eq_true, if_false]
  split <;> simp [websocket_session.logMsg, h]

theorem on_write_ok_nil (s : websocket_session) (ec : error_code) (n : Nat)
    (hec : ec.failed = false) (hq : s.message_queue = []) :
    (s.on_write ec n).wire = s.wire ∧ (s.on_write ec n).message_queue = [] ∧
    (s.on_write ec n).outstanding = s.outstanding ∧
    (s.on_write ec n).write_scheduled = false := by
  unfold websocket_session.on_write
  simp only [hec, Bool.false_eq_true, if_false]
  by_cases hv : s.verbose_ = true <;> simp [hv, hq, websocket_session.logMsg]

theorem on_write_ok_cons (s : websocket_session) (ec : error_code) (n : Nat)
    (hec : ec.failed = false) (m : String) (rest : List String)
    (hq : s.message_queue = m :: rest) :
    (s.on_write ec n).wire = s.wire ++ [m] ∧ (s.on_write ec n).message_queue = rest ∧
    (s.on_write ec n).outstanding = s.outstanding + 1 ∧
    (s.on_write ec n).write_scheduled = true := by
  unfold websocket_session.on_write
  simp only [hec, Bool.false_eq_true, if_false]
  by_cases hv : s.verbose_ = true <;>
    simp [hv, hq, websocket_session.logMsg, websocket_session.async_write]

theorem on_write_failed (s : websocket_session) (ec : error_code) (n : Nat)
    (hec : ec.failed = true) :
    (s.on_write ec n).wire = s.wire ∧ (s.on_write ec n).message_queue = s.message_queue ∧
    (s.on_write ec n).outstanding = s.outstanding ∧
    (s.on_write ec n).write_scheduled = s.write_scheduled := by
  unfold websocket_session.on_write websocket_session.fail
  simp only [hec, if_true]
  split
  · simp [websocket_session.logMsg]
  · split <;> simp [websocket_session.logMsg]

theorem step_success (s s' : websocket_session) (e : SessionEvent) (hinv : QueueInv s)
    (hok : SessionEvent.allSucceed [e] = true) (hstep : s.step e = some s') :
    QueueInv s' ∧
    s'.wire ++ s'.message_queue = s.wire ++ s.message_queue ++ SessionEvent.enqueued [e] ∧
    s'.wire.length + s.outstanding
      = s.wire.length + SessionEvent.completions [e] + s'.outstanding := by
  obtain ⟨hidle, hbusy⟩ := hinv
  cases e with
  | call_do_write m =>
    simp only [websocket_session.step, Option.some.injEq] at hstep
    subst hstep
    cases hf : s.write_scheduled with
    | false =>
      obtain ⟨hq, ho⟩ := hidle hf
      obtain ⟨h1, h2, h3, h4⟩ := do_write_idle s m hf
      refine ⟨⟨?_, ?_⟩, ?_, ?_⟩
      · intro h; rw [h4] at h; cases h
      · intro _; rw [h3, ho]
      · rw [h1, h2, hq]; simp [SessionEvent.enqueued]
      · rw [h1, h3, ho]; simp [SessionEvent.completions]
    | true =>
      have ho := hbusy hf
      obtain ⟨h1, h2, h3, h4⟩ := do_write_busy s m hf
      refine ⟨⟨?_, ?_⟩, ?_, ?_⟩
      · intro h; rw [h4] at h; cases h
      · intro _; rw [h3, ho]
      · rw [h1, h2]; simp [SessionEvent.enqueued]
      · rw [h1, h3]; simp [SessionEvent.completions]
  | completion ec n =>
    have hec : ec.failed = false := by
      simpa [SessionEvent.allSucceed] using hok
    simp only [websocket_session.step, websocket_session.complete] at hstep
    by_cases h0 : s.outstanding = 0
    · simp [h0] at hstep
    · simp only [h0, if_false, Option.some.injEq] at hstep
      have hf : s.write_scheduled = true := by
        cases hf : s.write_scheduled with
        | false => exact absurd (hidle hf).2 h0
        | true => rfl
      have ho := hbusy hf
      obtain ⟨s0, hs0⟩ : ∃ s0 : websocket_session,
          s0 = { s with outstanding := s.outstanding - 1 } := ⟨_, rfl⟩
      have ew : s0.wire = s.wire := by rw [hs0]
      have eq : s0.message_queue = s.message_queue := by rw [hs0]
      have eo : s0.outstanding = 0 := by rw [hs0]; simp [ho]
      rw [← hs0] at hstep
      subst hstep
      rcases hq : s0.message_queue with _ | ⟨m, rest⟩
      · obtain ⟨h1, h2, h3, h4⟩ := on_write_ok_nil s0 ec n hec hq
        refine ⟨⟨?_, ?_⟩, ?_, ?_⟩
        · intro _; exact ⟨h2, by rw [h3, eo]⟩
        · intro h; rw [h4] at h; cases h
        · rw [h1, h2, ew, ← eq, hq]; simp [SessionEvent.enqueued]
        · rw [h1, h3, ew, eo, ho]; simp [SessionEvent.completions]
      · obtain ⟨h1, h2, h3, h4⟩ := on_write_ok_cons s0 ec n hec m rest hq
        refine ⟨⟨?_, ?_⟩, ?_, ?_⟩
        · intro h; rw [h4] at h; cases h
        · intro _; rw [h3, eo]
        · rw [h1, h2, ew, ← eq, hq]; simp [SessionEvent.enqueued]
        · rw [h1, h3, ew, eo, ho]; simp [SessionEvent.completions]

theorem enqueued_cons (e : SessionEvent) (es : List SessionEvent) :
    SessionEvent.enqueued (e :: es) = SessionEvent.enqueued [e] ++ SessionEvent.enqueued es := by
  cases e <;> simp [SessionEvent.enqueued]

theorem completions_cons (e : SessionEvent) (es : List SessionEvent) :
    SessionEvent.completions (e :: es)
      = SessionEvent.completions [e] + SessionEvent.completions es := by
  cases e <;> simp [SessionEvent.completions]; omega

theorem allSucceed_cons (e : SessionEvent) (es : List SessionEvent) :
    SessionEvent.allSucceed (e :: es)
      = (SessionEvent.allSucceed [e] && SessionEvent.allSucceed es) := by
  cases e <;> simp [SessionEvent.allSucceed]

theorem run_success (es : List SessionEvent) :
    ∀ s s' : websocket_session, QueueInv s → SessionEvent.allSucceed es = true →
      s.run es = some s' →
      QueueInv s' ∧
      s'.wire ++ s'.message_queue = s.wire ++ s.message_queue ++ SessionEvent.enqueued es ∧
      s'.wire.length + s.outstanding
        = s.wire.length + SessionEvent.completions es + s'.outstanding := by
  induction es with
  | nil =>
    intro s s' hinv _ hrun
    simp only [websocket_session.run, Option.some.injEq] at hrun
    subst hrun
    simp [SessionEvent.enqueued, SessionEvent.completions, hinv]
  | cons e es ih =>
    intro s s' hinv hok hrun
    rw [allSucceed_cons, Bool.and_eq_true] at hok
    simp only [websocket_session.run] at hrun
    cases hstep : s.step e with
    | none => simp [hstep] at hrun
    | some s1 =>
      simp only [hstep] at hrun
      obtain ⟨i1, w1, c1⟩ := step_success s s1 e hinv hok.1 hstep
      obtain ⟨i2, w2, c2⟩ := ih s1 s' i1 hok.2 hrun
      refine ⟨i2, ?_, ?_⟩
      · rw [w2, w1, enqueued_cons e es]; simp
      · rw [completions_cons e es]; omega

theorem run_defined (es : List SessionEvent) :
    ∀ (s : websocket_session) (pending : Nat), QueueInv s →
      pending = s.outstanding + s.message_queue.length →
      SessionEvent.realisable pending es = true → SessionEvent.allSucceed es = true →
      ∃ s', s.run es = some s' := by
  induction es with
  | nil => intro s _ _ _ _ _; exact ⟨s, rfl⟩
  | cons e es ih =>
    intro s pending hinv hp hreal hok
    rw [allSucceed_cons, Bool.and_eq_true] at hok
    have hstep : ∃ s1, s.step e = some s1 := by
      cases e with
      | call_do_write m => exact ⟨_, rfl⟩
      | completion ec n =>
        simp only [SessionEvent.realisable, Bool.and_eq_true, decide_eq_true_eq] at hreal
        have ho : s.outstanding ≠ 0 := by
          intro ho
          cases hf : s.write_scheduled with
          | false =>
            have hq := (hinv.1 hf).1
            rw [ho, hq] at hp
            simp at hp
            omega
          | true =>
            have := hinv.2 hf
            omega
        exact ⟨({ s with outstanding := s.outstanding - 1 }).on_write ec n,
          by simp [websocket_session.step, websocket_session.complete, ho]⟩
    obtain ⟨s1, hs1⟩ := hstep
    obtain ⟨i1, w1, c1⟩ := step_success s s1 e hinv hok.1 hs1
    have hlen := congrArg List.length w1
    simp only [List.length_append] at hlen
    have hreal1 : SessionEvent.realisable (s1.outstanding + s1.message_queue.length) es = true := by
      cases e with
      | call_do_write m =>
        simp only [SessionEvent.realisable] at hreal
        simp only [SessionEvent.enqueued, SessionEvent.completions, List.length_cons,
          List.length_nil] at hlen c1
        have : s1.outstanding + s1.message_queue.length = pending + 1 := by omega
        rw [this]; exact hreal
      | completion ec n =>
        simp only [SessionEvent.realisable, Bool.and_eq_true, decide_eq_true_eq] at hreal
        simp only [SessionEvent.enqueued, SessionEvent.completions, List.length_nil] at hlen c1
        have : s1.outstanding + s1.message_queue.length = pending - 1 := by omega
        rw [this]; exact hreal.2
    obtain ⟨s', hs'⟩ := ih s1 _ i1 rfl hreal1 hok.2
    exact ⟨s', by simp [websocket_session.run, hs1, hs']⟩

/-- FIFO order when no call of `do_write` overlaps another handler.  From a session with
no write in flight, an empty pending queue and nothing written yet, every sequence of whole
`do_write` calls and successful write completions runs through, and afterwards the
messages handed to the connection are a prefix of the messages in `do_write` call order;
what was written followed by what is still pending is exactly that call sequence; and once
as many completions have occurred as messages were handed over, everything has been
written. -/
theorem fifo_order (s0 : websocket_session) (es : List SessionEvent)
    (hflag : s0.write_scheduled = false) (hqueue : s0.message_queue = [])
    (hout : s0.outstanding = 0) (hwire : s0.wire = [])
    (hreal : SessionEvent.realisable 0 es = true)
    (hok : SessionEvent.allSucceed es = true) :
    ∃ s, s0.run es = some s ∧
      s.wire <+: SessionEvent.enqueued es ∧
      s.wire ++ s.message_queue = SessionEvent.enqueued es ∧
      (SessionEvent.completions es = (SessionEvent.enqueued es).length →
        s.wire = SessionEvent.enqueued es ∧ s.message_queue = []) := by
  have hinv : QueueInv s0 := ⟨fun _ => ⟨hqueue, hout⟩, fun h => by rw [hflag] at h; cases h⟩
  obtain ⟨s, hs⟩ := run_defined es s0 0 hinv (by simp [hout, hqueue]) hreal hok
  obtain ⟨_, hw, hc⟩ := run_success es s0 s hinv hok hs
  rw [hwire, hqueue] at hw
  simp only [List.nil_append] at hw
  rw [hwire, hout] at hc
  simp only [List.length_nil] at hc
  refine ⟨s, hs, ⟨s.message_queue, hw⟩, hw, ?_⟩
  intro hcount
  have hlen := congrArg List.length hw
  simp only [List.length_append] at hlen
  have hq : s.message_queue = [] := List.length_eq_zero.mp (by omega)
  rw [hq, List.append_nil] at hw
  exact ⟨hw, hq⟩

/-- Three messages and three successful completions, calls not overlapping. -/
theorem fifo_order_witness :
    ∃ s, websocket_session.new.run
        [SessionEvent.call_do_write "a", SessionEvent.call_do_write "b",
         SessionEvent.completion ⟨ErrorKind.none, ""⟩ 1, SessionEvent.call_do_write "c",
         SessionEvent.completion ⟨ErrorKind.none, ""⟩ 1,
         SessionEvent.completion ⟨ErrorKind.none, ""⟩ 1] = some s ∧
      s.wire <+: ["a", "b", "c"] ∧ s.wire ++ s.message_queue = ["a", "b", "c"] ∧
      (3 = 3 → s.wire = ["a", "b", "c"] ∧ s.message_queue = []) :=
  fifo_order websocket_session.new
    [SessionEvent.call_do_write "a", SessionEvent.call_do_write "b",
     SessionEvent.completion ⟨ErrorKind.none, ""⟩ 1, SessionEvent.call_do_write "c",
     SessionEvent.completion ⟨ErrorKind.none, ""⟩ 1,
     SessionEvent.completion ⟨ErrorKind.none, ""⟩ 1] rfl rfl rfl rfl rfl rfl

theorem on_write_starts (s : websocket_session) (ec : error_code) (n : Nat) :
    ((s.on_write ec n).wire = s.wire ∧ (s.on_write ec n).outstanding = s.outstanding) ∨
    (∃ m, (s.on_write ec n).wire = s.wire ++ [m] ∧
      (s.on_write ec n).outstanding = s.outstanding + 1 ∧
      (s.on_write ec n).write_scheduled = true) := by
  cases hec : ec.failed with
  | true =>
    obtain ⟨h1, _, h3, _⟩ := on_write_failed s ec n hec
    exact Or.inl ⟨h1, h3⟩
  | false =>
    rcases hq : s.message_queue with _ | ⟨m, rest⟩
    · obtain ⟨h1, _, h3, _⟩ := on_write_ok_nil s ec n hec hq
      exact Or.inl ⟨h1, h3⟩
    · obtain ⟨h1, _, h3, h4⟩ := on_write_ok_cons s ec n hec m rest hq
      exact Or.inr ⟨m, h1, h3, h4⟩

theorem step_single_flight (s s' : websocket_session) (e : SessionEvent)
    (hinv : SingleFlight s) (hstep : s.step e = some s') : SingleFlight s' := by
  obtain ⟨hle, hflag⟩ := hinv
  cases e with
  | call_do_write m =>
    simp only [websocket_session.step, Option.some.injEq] at hstep
    subst hstep
    cases hf : s.write_scheduled with
    | false =>
      obtain ⟨_, _, h3, h4⟩ := do_write_idle s m hf
      have h0 : s.outstanding = 0 := by
        rcases Nat.lt_or_ge s.outstanding 1 with h | h
        · omega
        · have := hflag (by omega); rw [hf] at this; cases this
      exact ⟨by rw [h3, h0], fun _ => h4⟩
    | true =>
      obtain ⟨_, _, h3, h4⟩ := do_write_busy s m hf
      exact ⟨by rw [h3]; exact hle, fun _ => h4⟩
  | completion ec n =>
    simp only [websocket_session.step, websocket_session.complete] at hstep
    by_cases h0 : s.outstanding = 0
    · simp [h0] at hstep
    · simp only [h0, if_false, Option.some.injEq] at hstep
      obtain ⟨s0, hs0⟩ : ∃ s0 : websocket_session,
          s0 = { s with outstanding := s.outstanding - 1 } := ⟨_, rfl⟩
      have eo : s0.outstanding = 0 := by rw [hs0]; show s.outstanding - 1 = 0; omega
      rw [← hs0] at hstep
      subst hstep
      rcases on_write_starts s0 ec n with ⟨_, h3⟩ | ⟨m, _, h3, h4⟩
      · exact ⟨by rw [h3, eo]; omega, fun h => by rw [h3, eo] at h; cases h⟩
      · exact ⟨by rw [h3, eo], fun _ => h4⟩

theorem run_single_flight (es : List SessionEvent) :
    ∀ s s' : websocket_session, SingleFlight s → s.run es = some s' → SingleFlight s' := by
  induction es with
  | nil =>
    intro s s' hinv hrun
    simp only [websocket_session.run, Option.some.injEq] at hrun
    subst hrun
    exact hinv
  | cons e es ih =>
    intro s s' hinv hrun
    simp only [websocket_session.run] at hrun
    cases hstep : s.step e with
    | none => simp [hstep] at hrun
    | some s1 =>
      simp only [hstep] at hrun
      exact ih s1 s' (step_single_flight s s1 e hinv hstep) hrun

/-- Single flight when no call of `do_write` overlaps another handler.  In every state
reached from a session with no write outstanding by any sequence of whole `do_write` calls
and write completions, successful or failed, at most one write is outstanding; a
`do_write` call that hands a message to the connection does so only when no write is
outstanding, and so does the `on_write` that a completion runs. -/
theorem single_flight (s0 s : websocket_session) (es : List SessionEvent)
    (hout : s0.outstanding = 0) (hrun : s0.run es = some s) :
    s.outstanding ≤ 1 ∧
    (∀ m, (s.do_write m).wire ≠ s.wire → s.outstanding = 0 ∧ (s.do_write m).outstanding = 1) ∧
    (∀ ec n, s.outstanding ≠ 0 →
      (({ s with outstanding := s.outstanding - 1 }).on_write ec n).wire ≠ s.wire →
      s.outstanding - 1 = 0 ∧
      (({ s with outstanding := s.outstanding - 1 }).on_write ec n).outstanding = 1) := by
  have hinv : SingleFlight s :=
    run_single_flight es s0 s ⟨by omega, fun h => by omega⟩ hrun
  obtain ⟨hle, hflag⟩ := hinv
  refine ⟨hle, ?_, ?_⟩
  · intro m hne
    cases hf : s.write_scheduled with
    | false =>
      obtain ⟨_, _, h3, _⟩ := do_write_idle s m hf
      have h0 : s.outstanding = 0 := by
        rcases Nat.lt_or_ge s.outstanding 1 with h | h
        · omega
        · have := hflag (by omega); rw [hf] at this; cases this
      exact ⟨h0, by rw [h3, h0]⟩
    | true => exact absurd (do_write_busy s m hf).1 hne
  · intro ec n hne hw
    obtain ⟨s1, hs1⟩ : ∃ s1 : websocket_session,
        s1 = { s with outstanding := s.outstanding - 1 } := ⟨_, rfl⟩
    have eo : s1.outstanding = 0 := by rw [hs1]; show s.outstanding - 1 = 0; omega
    have ew : s1.wire = s.wire := by rw [hs1]
    rw [← hs1] at hw ⊢
    rcases on_write_starts s1 ec n with ⟨h1, _⟩ | ⟨m, _, h3, _⟩
    · exact absurd (h1.trans ew) hw
    · exact ⟨by omega, by rw [h3, eo]⟩

/-- Two messages, a failed completion, then a third message, calls not overlapping. -/
theorem single_flight_witness :
    (websocket_session.mk ["b", "c"] true false ["a"] 0
        [⟨Severity.error, "write: broken pipe"⟩]).outstanding ≤ 1 :=
  (single_flight websocket_session.new
    (websocket_session.mk ["b", "c"] true false ["a"] 0
      [⟨Severity.error, "write: broken pipe"⟩])
    [SessionEvent.call_do_write "a", SessionEvent.call_do_write "b",
     SessionEvent.completion ⟨ErrorKind.other, "broken pipe"⟩ 0,
     SessionEvent.call_do_write "c"] rfl (by decide)).1

/-- The sequences of whole calls are the schedules of the finer grain in which the two
steps of every call are adjacent. -/
theorem run_serialise (es : List SessionEvent) :
    ∀ s : websocket_session,
      (RaceState.mk s []).run (RaceEvent.serialise es)
        = (s.run es).map (fun s1 => RaceState.mk s1 []) := by
  induction es with
  | nil => intro s; rfl
  | cons e es ih =>
    intro s
    cases e with
    | call_do_write m =>
      simp only [RaceEvent.serialise, RaceState.run, RaceState.step, List.any_nil,
        Bool.false_eq_true, if_false, List.nil_append, List.find?_cons, beq_self_eq_true,
        List.filter_cons, bne_self_eq_false, List.filter_nil, websocket_session.run,
        websocket_session.step]
      exact ih _
    | completion ec n =>
      simp only [RaceEvent.serialise, RaceState.run, RaceState.step, websocket_session.run,
        websocket_session.step]
      cases hc : s.complete ec n with
      | none => rfl
      | some s1 => exact ih s1

/-- C1 on the code: `do_write` tests `write_scheduled` before it takes `qmutex`.  When the
completion of A runs between that test and the push of B, B is queued behind an idle
connection and the next message C is written before it: with calls in the order A, B, C
and only successful completions, the connection has received A, C when C is handed over
and A, C, B once all three writes have completed. -/
theorem do_write_race_reorders :
    RaceEvent.called reorderSchedule = ["A", "B", "C"] ∧
    RaceEvent.allSucceed reorderSchedule = true ∧
    RaceEvent.completions reorderSchedule = 3 ∧
    ((RaceState.mk websocket_session.new []).run (reorderSchedule.take 7)).map
        (fun st => st.session.wire) = some ["A", "C"] ∧
    ((RaceState.mk websocket_session.new []).run reorderSchedule).map
        (fun st => (st.session.wire, st.session.message_queue, st.pending))
      = some (["A", "C", "B"], [], []) ∧
    ¬ (["A", "C"] <+: ["A", "B", "C"]) ∧
    ¬ (["A", "C", "B"] = ["A", "B", "C"]) := by
  refine ⟨by decide, by decide, by decide, by decide, by decide, ?_, by decide⟩
  intro h
  obtain ⟨t, ht⟩ := h
  simp at ht

/-- C2 on the code: `do_write` tests `write_scheduled` before it takes `qmutex`.  When two
callers both test the flag of an idle session before either runs its branch, both hand
their message to `async_write`: two writes are outstanding on the connection, and the
second was started while the first was outstanding. -/
theorem do_write_race_two_outstanding :
    ((RaceState.mk websocket_session.new []).run (doubleWriteSchedule.take 3)).map
        (fun st => (st.session.wire, st.session.outstanding))
      = some ([testPacketMessage], 1) ∧
    ((RaceState.mk websocket_session.new []).run doubleWriteSchedule).map
        (fun st => (st.session.wire, st.session.outstanding, st.pending))
      = some ([testPacketMessage, physDataPacketMessage "0"], 2, []) ∧
    ¬ (2 ≤ 1) := by
  refine ⟨by decide, by decide, by decide⟩

/-! ## The event bridge -/

theorem beq_false_of_ne (c k : String) (h : ¬ c = k) : (c == k) = false := by
  simpa using h

theorem lookup_replace (l : List (String × String)) (k v c : String) :
    List.lookup c (l.map (fun entry => if entry.1 == k then (k, v) else entry))
      = if c == k then (List.lookup k l).map (fun _ => v) else List.lookup c l := by
  induction l with
  | nil => simp [List.lookup]
  | cons e l ih =>
    obtain ⟨a, b⟩ := e
    rw [List.map_cons]
    by_cases hak : a = k
    · have e1 : (if ((a, b) : String × String).1 == k then (k, v) else (a, b)) = (k, v) := by
        simp [hak]
      rw [e1, List.lookup_cons, List.lookup_cons, List.lookup_cons, ih]
      by_cases hck : c = k
      · subst hck; simp [hak]
      · simp [beq_false_of_ne c k hck, beq_false_of_ne c a (by rw [hak]; exact hck)]
    · have e1 : (if ((a, b) : String × String).1 == k then (k, v) else (a, b)) = (a, b) := by
        simp [hak]
      rw [e1, List.lookup_cons, List.lookup_cons, List.lookup_cons, ih]
      by_cases hck : c = k
      · subst hck
        simp [beq_false_of_ne c a (fun h => hak h.symm)]
      · by_cases hca : c = a
        · subst hca; simp [beq_false_of_ne c k hck]
        · simp [beq_false_of_ne c k hck, beq_false_of_ne c a hca]

theorem find_subscript (m : StringMap) (k c : String) :
    (m.subscript k).find c
      = if c == k then some ((m.find k).getD "") else m.find c := by
  unfold StringMap.subscript
  cases hk : m.find k with
  | some v =>
    by_cases hck : c = k
    · subst hck; simp [hk]
    · simp [hck]
  | none =>
    simp only [StringMap.find] at hk ⊢
    by_cases hck : c = k
    · subst hck; simp [List.lookup_append, hk, List.lookup]
    · simp [List.lookup_append, beq_false_of_ne c k hck, List.lookup]

theorem find_assign (m : StringMap) (k v c : String) :
    (m.assign k v).find c = if c == k then some v else m.find c := by
  unfold StringMap.assign
  show List.lookup c _ = _
  rw [lookup_replace]
  by_cases hck : c = k
  · simp only [hck, beq_self_eq_true, if_true]
    have := find_subscript m k k
    simp only [StringMap.find, beq_self_eq_true, if_true] at this
    rw [this]; rfl
  · simp only [hck, beq_iff_eq, if_false]
    have := find_subscript m k c
    simp only [StringMap.find, beq_iff_eq, hck, if_false] at this
    exact this

theorem OnPhysiologyValue_nan (b : Bridge) (pv : PhysiologyValue) (h : pv.value.isnan = true) :
    (OnPhysiologyValue b pv).nodeDataStorage = b.nodeDataStorage ∧
    (OnPhysiologyValue b pv).ws_session = b.ws_session ∧
    (OnPhysiologyValue b pv).websocket_connected = b.websocket_connected := by
  unfold OnPhysiologyValue
  simp only [h, Bool.not_true, Bool.false_eq_true, if_false]
  split
  · split <;> simp [Bridge.logMsg]
  · simp

theorem OnPhysiologyValue_other (b : Bridge) (pv : PhysiologyValue)
    (h : pv.value.isnan = false) (hn : pv.name ≠ "SIM_TIME") :
    (OnPhysiologyValue b pv).nodeDataStorage
      = b.nodeDataStorage.assign pv.name pv.value.to_string ∧
    (OnPhysiologyValue b pv).ws_session = b.ws_session ∧
    (OnPhysiologyValue b pv).websocket_connected = b.websocket_connected := by
  unfold OnPhysiologyValue
  simp only [h, Bool.not_false, if_true, beq_false_of_ne pv.name "SIM_TIME" hn,
    Bool.false_eq_true, if_false]
  split
  · split <;> simp [Bridge.logMsg]
  · simp

theorem OnPhysiologyValue_sim_time_offline (b : Bridge) (pv : PhysiologyValue)
    (h : pv.value.isnan = false) (hn : pv.name = "SIM_TIME")
    (hc : b.websocket_connected = false) :
    (OnPhysiologyValue b pv).nodeDataStorage
      = (b.nodeDataStorage.assign "SIM_TIME" pv.value.to_string).assign "SIM_TIME"
          pv.value.fixed1 ∧
    (OnPhysiologyValue b pv).ws_session = b.ws_session ∧
    (OnPhysiologyValue b pv).websocket_connected = b.websocket_connected := by
  unfold OnPhysiologyValue
  have hrr : (pv.name == "Respiratory_Respiration_Rate") = false := by rw [hn]; decide
  simp [h, hn, hc, hrr]

theorem OnPhysiologyValue_sim_time_online (b : Bridge) (pv : PhysiologyValue)
    (h : pv.value.isnan = false) (hn : pv.name = "SIM_TIME")
    (hc : b.websocket_connected = true) :
    (OnPhysiologyValue b pv).nodeDataStorage
      = ((b.nodeDataStorage.assign "SIM_TIME" pv.value.to_string).assign "SIM_TIME"
          pv.value.fixed1).subscript "Cardiovascular_HeartRate" ∧
    (OnPhysiologyValue b pv).ws_session
      = b.ws_session.do_write (physDataPacketMessage
          (((b.nodeDataStorage.assign "SIM_TIME" pv.value.to_string).assign "SIM_TIME"
            pv.value.fixed1).valueAt "Cardiovascular_HeartRate")) ∧
    (OnPhysiologyValue b pv).websocket_connected = b.websocket_connected := by
  unfold OnPhysiologyValue
  have hrr : (pv.name == "Respiratory_Respiration_Rate") = false := by rw [hn]; decide
  simp [h, hn, hc, hrr, writePhysDataPacket, Bridge.logMsg]

theorem do_write_submitted (s : websocket_session) (m : String) :
    (s.do_write m).wire.length + (s.do_write m).message_queue.length
      = s.wire.length + s.message_queue.length + 1 := by
  cases hf : s.write_scheduled with
  | false =>
    obtain ⟨h1, h2, _, _⟩ := do_write_idle s m hf
    rw [h1, h2, List.length_append, List.length_singleton]; omega
  | true =>
    obtain ⟨h1, h2, _, _⟩ := do_write_busy s m hf
    rw [h1, h2, List.length_append, List.length_singleton]; omega

theorem OnPhysiologyValue_submitted (b : Bridge) (pv : PhysiologyValue) :
    (OnPhysiologyValue b pv).submitted
      = b.submitted + (if b.websocket_connected && pv.isSimTimeReport then 1 else 0) ∧
    (OnPhysiologyValue b pv).websocket_connected = b.websocket_connected := by
  unfold Bridge.submitted PhysiologyValue.isSimTimeReport
  cases hnan : pv.value.isnan with
  | true =>
    obtain ⟨_, h2, h3⟩ := OnPhysiologyValue_nan b pv hnan
    rw [h2, h3]; simp
  | false =>
    by_cases hn : pv.name = "SIM_TIME"
    · cases hc : b.websocket_connected with
      | false =>
        obtain ⟨_, h2, h3⟩ := OnPhysiologyValue_sim_time_offline b pv hnan hn hc
        rw [h2, h3]; simp [hc]
      | true =>
        obtain ⟨_, h2, h3⟩ := OnPhysiologyValue_sim_time_online b pv hnan hn hc
        rw [h2, h3, do_write_submitted]; simp [hc, hn]
    · obtain ⟨_, h2, h3⟩ := OnPhysiologyValue_other b pv hnan hn
      rw [h2, h3]; simp [hn]

theorem handle_keeps_absent (b : Bridge) (e : BridgeEvent) (c : String)
    (hc : c ≠ "Cardiovascular_HeartRate")
    (he : BridgeEvent.noUpdateFor c [e] = true)
    (habs : b.nodeDataStorage.find c = none) :
    (b.handle e).nodeDataStorage.find c = none := by
  cases e with
  | physiologyValue pv =>
    have hname : c ≠ pv.name := by
      intro h
      simp [BridgeEvent.noUpdateFor, h] at he
    simp only [Bridge.handle]
    cases hnan : pv.value.isnan with
    | true => rw [(OnPhysiologyValue_nan b pv hnan).1]; exact habs
    | false =>
      by_cases hn : pv.name = "SIM_TIME"
      · have hsim : c ≠ "SIM_TIME" := by rw [← hn]; exact hname
        cases hconn : b.websocket_connected with
        | false =>
          rw [(OnPhysiologyValue_sim_time_offline b pv hnan hn hconn).1, find_assign,
            find_assign]
          simp [beq_false_of_ne c "SIM_TIME" hsim, habs]
        | true =>
          rw [(OnPhysiologyValue_sim_time_online b pv hnan hn hconn).1, find_subscript]
          simp only [beq_false_of_ne c "Cardiovascular_HeartRate" hc, Bool.false_eq_true,
            if_false]
          rw [find_assign, find_assign]
          simp [beq_false_of_ne c "SIM_TIME" hsim, habs]
      · rw [(OnPhysiologyValue_other b pv hnan hn).1, find_assign]
        simp [beq_false_of_ne c pv.name hname, habs]
  | tick frame =>
    simp only [Bridge.handle, OnNewTick]
    split <;> simpa [Bridge.logMsg] using habs
  | simulationControl type =>
    cases type with
    | RESET => rfl
    | RUN => exact habs
    | HALT => exact habs
    | SAVE => exact habs
  | handshake body =>
    simpa [Bridge.handle, onWebsocketHandshake, writeTestPacket, Bridge.logMsg] using habs

theorem noUpdateFor_cons (c : String) (e : BridgeEvent) (es : List BridgeEvent) :
    BridgeEvent.noUpdateFor c (e :: es)
      = (BridgeEvent.noUpdateFor c [e] && BridgeEvent.noUpdateFor c es) := by
  cases e <;> simp [BridgeEvent.noUpdateFor]

/-- Reset keeps every channel other than the heart rate without a value until an update
for that channel arrives. -/
theorem reset_clears_other_channels (b : Bridge) (c : String) (es : List BridgeEvent)
    (hc : c ≠ "Cardiovascular_HeartRate") (hes : BridgeEvent.noUpdateFor c es = true) :
    ((OnNewSimulationControl b ControlType.RESET).handleAll es).nodeDataStorage.find c
      = none := by
  have hstart : (OnNewSimulationControl b ControlType.RESET).nodeDataStorage.find c = none := by
    simp [OnNewSimulationControl, Bridge.logMsg, StringMap.clear, StringMap.find]
  generalize OnNewSimulationControl b ControlType.RESET = b1 at hstart
  induction es generalizing b1 with
  | nil => exact hstart
  | cons e es ih =>
    rw [noUpdateFor_cons, Bool.and_eq_true] at hes
    simp only [Bridge.handleAll, List.foldl_cons]
    exact ih hes.2 (b1.handle e) (handle_keeps_absent b1 e c hc hes.1 hstart)

/-- C4 on the code: after Reset the heart-rate channel has no value, and once the link
is established the next sim-time update, which is no update for the heart rate, creates a
heart-rate entry holding the empty string and sends it in the report. -/
theorem reset_heart_rate_reappears :
    ((Bridge.new false).handleAll
        [BridgeEvent.simulationControl ControlType.RESET]).nodeDataStorage.find
          "Cardiovascular_HeartRate" = none ∧
    BridgeEvent.noUpdateFor "Cardiovascular_HeartRate"
        [BridgeEvent.handshake "",
         BridgeEvent.physiologyValue ⟨"SIM_TIME", ⟨false, "12.340000", "12.3", "12.34"⟩⟩]
      = true ∧
    ((Bridge.new false).handleAll
        [BridgeEvent.simulationControl ControlType.RESET, BridgeEvent.handshake "",
         BridgeEvent.physiologyValue
           ⟨"SIM_TIME", ⟨false, "12.340000", "12.3", "12.34"⟩⟩]).nodeDataStorage.find
          "Cardiovascular_HeartRate" = some "" ∧
    ((Bridge.new false).handleAll
        [BridgeEvent.simulationControl ControlType.RESET, BridgeEvent.handshake "",
         BridgeEvent.physiologyValue
           ⟨"SIM_TIME", ⟨false, "12.340000", "12.3", "12.34"⟩⟩]).ws_session.message_queue
      = [physDataPacketMessage ""] := by
  refine ⟨by decide, by decide, by decide, by decide⟩

/-- C5: tick-guarded auto-start.  `OnNewTick` leaves the status at Running (1) when the
status was Reset (0) and the frame exceeds the watermark, leaves it as it was otherwise,
and sets the watermark to the frame.  From status Reset and watermark 5 a tick with frame
6 gives Running and watermark 6, and a second tick with frame 6 keeps both. -/
theorem tick_guarded_auto_start :
    (∀ (b : Bridge) (f : Int),
      (OnNewTick b f).sim_status = (if b.sim_status = 0 ∧ f > b.lastTick then 1 else b.sim_status) ∧
      (OnNewTick b f).lastTick = f) ∧
    (∀ b : Bridge,
      (OnNewTick { b with sim_status := 0, lastTick := 5 } 6).sim_status = 1 ∧
      (OnNewTick { b with sim_status := 0, lastTick := 5 } 6).lastTick = 6 ∧
      (OnNewTick (OnNewTick { b with sim_status := 0, lastTick := 5 } 6) 6).sim_status = 1 ∧
      (OnNewTick (OnNewTick { b with sim_status := 0, lastTick := 5 } 6) 6).lastTick = 6) := by
  have key : ∀ (b : Bridge) (f : Int),
      (OnNewTick b f).sim_status = (if b.sim_status = 0 ∧ f > b.lastTick then 1 else b.sim_status) ∧
      (OnNewTick b f).lastTick = f := by
    intro b f
    unfold OnNewTick
    by_cases h0 : b.sim_status = 0 <;> by_cases hf : f > b.lastTick <;>
      simp [h0, hf, Bridge.logMsg]
  refine ⟨key, fun b => ?_⟩
  obtain ⟨a1, a2⟩ := key { b with sim_status := 0, lastTick := 5 } 6
  obtain ⟨b1, b2⟩ := key (OnNewTick { b with sim_status := 0, lastTick := 5 } 6) 6
  refine ⟨?_, a2, ?_, b2⟩
  · rw [a1]; simp
  · rw [b1, a1, a2]; simp

theorem OnNewTick_lastTick (b : Bridge) (f : Int) : (OnNewTick b f).lastTick = f := by
  unfold OnNewTick
  split <;> rfl

theorem tickTrace_eq (frames : List Int) : ∀ b : Bridge, tickTrace b frames = frames := by
  induction frames with
  | nil => intro b; rfl
  | cons f rest ih => intro b; simp [tickTrace, OnNewTick_lastTick, ih]

theorem tickAll_lastTick (frames : List Int) :
    ∀ b : Bridge, (tickAll b frames).lastTick = frames.getLast?.getD b.lastTick := by
  induction frames with
  | nil => intro b; rfl
  | cons f rest ih =>
    intro b
    have h := ih (OnNewTick b f)
    rw [OnNewTick_lastTick] at h
    simp only [tickAll, List.foldl_cons] at h ⊢
    rw [h, List.getLast?_cons]
    rfl

theorem le_last_of_nondecreasing (rest : List Int) :
    ∀ f : Int, nondecreasing (f :: rest) = true →
      ∀ g ∈ f :: rest, g ≤ rest.getLast?.getD f := by
  induction rest with
  | nil => intro f _ g hg; simp at hg; simp [hg]
  | cons r rest ih =>
    intro f hp g hg
    simp only [nondecreasing, Bool.and_eq_true, decide_eq_true_eq] at hp
    have hlast : ∀ g ∈ r :: rest, g ≤ rest.getLast?.getD r := ih r hp.2
    rw [List.getLast?_cons, Option.getD_some]
    rcases List.mem_cons.mp hg with hgf | hgr
    · subst hgf
      exact le_trans hp.1 (hlast r (List.mem_cons_self _ _))
    · exact hlast g hgr

/-- C6, as stated, fails: after the ticks 5 and 3 the watermark has gone down from 5 to
3 and is not the highest frame number observed. -/
theorem watermark_counterexample :
    ¬ WatermarkMonotone (Bridge.new false) [5, 3] ∧
    (tickAll (Bridge.new false) [5]).lastTick = 5 ∧
    (tickAll (Bridge.new false) [5, 3]).lastTick = 3 := by
  refine ⟨by decide, by decide, by decide⟩

/-- C6, amended: after every tick the watermark (`lastTick`) equals the frame number of
that tick, so after a sequence of ticks it is the frame number of the last one (and
unchanged when there was none).  When the frame numbers arrive in non-decreasing order
the watermark never decreases from one tick to the next and after the sequence it equals
the highest frame number observed. -/
theorem watermark_follows_last_tick (b : Bridge) (frames : List Int) :
    tickTrace b frames = frames ∧
    (tickAll b frames).lastTick = frames.getLast?.getD b.lastTick ∧
    (nondecreasing frames = true → WatermarkMonotone b frames) := by
  refine ⟨tickTrace_eq frames b, tickAll_lastTick frames b, fun hsorted => ?_⟩
  refine ⟨by rw [tickTrace_eq]; exact hsorted, ?_, ?_⟩
  · intro f hf
    rw [tickAll_lastTick]
    cases frames with
    | nil => cases hf
    | cons f0 rest =>
      rw [List.getLast?_cons, Option.getD_some]
      exact le_last_of_nondecreasing rest f0 hsorted f hf
  · intro hne
    rw [tickAll_lastTick]
    cases hl : frames.getLast? with
    | none => exact absurd (List.getLast?_eq_none_iff.mp hl) hne
    | some w => exact List.mem_of_getLast?_eq_some hl

/-- Witness for C6: the ticks 4, 6, 6, 9 in non-decreasing order from the initial state. -/
theorem watermark_follows_last_tick_witness :
    WatermarkMonotone (Bridge.new false) [4, 6, 6, 9] :=
  (watermark_follows_last_tick (Bridge.new false) [4, 6, 6, 9]).2.2 (by decide)

/-- C7: simulation-control transition table.  `OnNewSimulationControl` sets the status
to Running (1) on Run, Paused (2) on Halt and Reset (0) on Reset, where it also empties
the telemetry cache so that no channel has a value; on Save status and cache stay as they
were; Run, Halt and Save keep the cache; no control event changes the watermark, the
connection flags or the session, so nothing is enqueued. -/
theorem simulation_control_table (b : Bridge) (type : ControlType) :
    (OnNewSimulationControl b type).sim_status
      = (match type with
        | ControlType.RUN => 1
        | ControlType.HALT => 2
        | ControlType.RESET => 0
        | ControlType.SAVE => b.sim_status) ∧
    (OnNewSimulationControl b type).nodeDataStorage
      = (match type with
        | ControlType.RESET => []
        | _ => b.nodeDataStorage) ∧
    (∀ c, (OnNewSimulationControl b ControlType.RESET).nodeDataStorage.find c = none) ∧
    (OnNewSimulationControl b type).lastTick = b.lastTick ∧
    (OnNewSimulationControl b type).ws_session = b.ws_session ∧
    (OnNewSimulationControl b type).websocket_connected = b.websocket_connected ∧
    (OnNewSimulationControl b type).submitted = b.submitted := by
  cases type <;>
    simp [OnNewSimulationControl, Bridge.logMsg, StringMap.clear, StringMap.find,
      Bridge.submitted]

/-- C8, as stated, fails: while the link is not established a non-NaN sim-time update
enqueues nothing. -/
theorem emission_cadence_counterexample :
    (telemetryAll (Bridge.new false)
        [⟨"SIM_TIME", ⟨false, "12.340000", "12.3", "12.34"⟩⟩]).submitted
      = (Bridge.new false).submitted ∧
    ([(⟨"SIM_TIME", ⟨false, "12.340000", "12.3", "12.34"⟩⟩ : PhysiologyValue)].filter
        PhysiologyValue.isSimTimeReport).length = 1 := by
  constructor <;> decide

/-- C8, amended: while the link is established (`websocket_connected`), the number of
outbound messages enqueued while a sequence of telemetry updates is processed equals the
number of updates in it that are for `SIM_TIME` and carry a non-NaN value; each such
update enqueues exactly one message and any other update none.  While the link is not
established no telemetry update enqueues a message. -/
theorem emission_cadence (b : Bridge) (updates : List PhysiologyValue) :
    (telemetryAll b updates).submitted
      = b.submitted +
        (if b.websocket_connected then
          (updates.filter PhysiologyValue.isSimTimeReport).length else 0) ∧
    (∀ pv : PhysiologyValue, (OnPhysiologyValue b pv).submitted
      = b.submitted + (if b.websocket_connected && pv.isSimTimeReport then 1 else 0)) := by
  refine ⟨?_, fun pv => (OnPhysiologyValue_submitted b pv).1⟩
  induction updates generalizing b with
  | nil => simp [telemetryAll]
  | cons pv rest ih =>
    have hstep := OnPhysiologyValue_submitted b pv
    have hrest := ih (OnPhysiologyValue b pv)
    simp only [telemetryAll, List.foldl_cons] at hrest ⊢
    rw [hrest, hstep.1, hstep.2, List.filter_cons]
    cases b.websocket_connected <;> cases pv.isSimTimeReport <;> (simp; try omega)

theorem physDataPacketMessage_head (h : String) :
    physDataPacketMessage h
      = publishEnvelopeHead ++ ("My heart rate is " ++ h ++ " bpm.\"\x7d\x7d") := by
  unfold physDataPacketMessage
  have e : "\x7b\"op\":\"publish\",\"topic\":\"/hr/control/speech/say\",\"msg\": \x7b\"text\": \"My heart rate is "
      = publishEnvelopeHead ++ "My heart rate is " := by decide
  rw [e]
  simp only [String.append_assoc]

theorem valueAt_of_find (m : StringMap) (k h : String) (hk : m.find k = some h) :
    m.valueAt k = h := by
  unfold StringMap.valueAt
  rw [find_subscript]
  simp [hk]

/-- C9: telemetry report content.  When the heart-rate channel of the cache holds the
string `h`, the message that a sim-time update (non-NaN, link established) hands to
`do_write`, and that `writePhysDataPacket` hands to `do_write`, is the publish envelope
built around `h`; the envelope is the fixed text up to "My heart rate is ", then `h`,
then " bpm." and the closing braces; it starts with the same operation and topic as the
greeting message; for `h = "72"` it is the envelope containing "72". -/
theorem telemetry_report_content (b : Bridge) (pv : PhysiologyValue) (h : String)
    (hhr : b.nodeDataStorage.find "Cardiovascular_HeartRate" = some h)
    (hnan : pv.value.isnan = false) (hn : pv.name = "SIM_TIME")
    (hc : b.websocket_connected = true) :
    (OnPhysiologyValue b pv).ws_session = b.ws_session.do_write (physDataPacketMessage h) ∧
    (writePhysDataPacket b).ws_session = b.ws_session.do_write (physDataPacketMessage h) ∧
    physDataPacketMessage h
      = "\x7b\"op\":\"publish\",\"topic\":\"/hr/control/speech/say\",\"msg\": \x7b\"text\": \"My heart rate is "
        ++ h ++ " bpm.\"\x7d\x7d" ∧
    physDataPacketMessage h
      = publishEnvelopeHead ++ ("My heart rate is " ++ h ++ " bpm.\"\x7d\x7d") ∧
    testPacketMessage = publishEnvelopeHead ++ "Greetings from MoHSES\"\x7d\x7d" ∧
    physDataPacketMessage "72"
      = "\x7b\"op\":\"publish\",\"topic\":\"/hr/control/speech/say\",\"msg\": \x7b\"text\": \"My heart rate is 72 bpm.\"\x7d\x7d" := by
  refine ⟨?_, ?_, rfl, physDataPacketMessage_head h, by decide, by decide⟩
  · obtain ⟨_, h2, _⟩ := OnPhysiologyValue_sim_time_online b pv hnan hn hc
    rw [h2]
    have hfind : ((b.nodeDataStorage.assign "SIM_TIME" pv.value.to_string).assign "SIM_TIME"
        pv.value.fixed1).find "Cardiovascular_HeartRate" = some h := by
      rw [find_assign, find_assign]
      have hne : ("Cardiovascular_HeartRate" == "SIM_TIME") = false := by decide
      simp only [hne, Bool.false_eq_true, if_false]
      exact hhr
    rw [valueAt_of_find _ _ h hfind]
  · simp [writePhysDataPacket, Bridge.logMsg, valueAt_of_find _ _ h hhr]

/-- Witness for C9: the cache holds heart rate "72", the link is established and a
sim-time update of 12.34 arrives while no write is in flight. -/
theorem telemetry_report_content_witness :
    (OnPhysiologyValue
      { Bridge.new false with
        nodeDataStorage := [("Cardiovascular_HeartRate", "72")], websocket_connected := true }
      ⟨"SIM_TIME", ⟨false, "12.340000", "12.3", "12.34"⟩⟩).ws_session
      = websocket_session.new.do_write (physDataPacketMessage "72") :=
  (telemetry_report_content
    { Bridge.new false with
      nodeDataStorage := [("Cardiovascular_HeartRate", "72")], websocket_connected := true }
    ⟨"SIM_TIME", ⟨false, "12.340000", "12.3", "12.34"⟩⟩ "72" (by decide) rfl rfl rfl).1

/-- C10: NaN telemetry is filtered.  A telemetry update whose value is NaN, for any
channel, cache and connection state, leaves the cache as it was and hands nothing to the
session; a non-NaN update for a channel other than `SIM_TIME` sets the entry of that
channel to the string form of the value, changes no other entry and hands nothing to the
session. -/
theorem nan_telemetry_filtered (b : Bridge) (pv : PhysiologyValue) :
    (pv.value.isnan = true →
      (OnPhysiologyValue b pv).nodeDataStorage = b.nodeDataStorage ∧
      (OnPhysiologyValue b pv).ws_session = b.ws_session ∧
      (OnPhysiologyValue b pv).submitted = b.submitted) ∧
    (pv.value.isnan = false → pv.name ≠ "SIM_TIME" →
      (OnPhysiologyValue b pv).nodeDataStorage.find pv.name = some pv.value.to_string ∧
      (∀ c, c ≠ pv.name →
        (OnPhysiologyValue b pv).nodeDataStorage.find c = b.nodeDataStorage.find c) ∧
      (OnPhysiologyValue b pv).ws_session = b.ws_session) := by
  constructor
  · intro hnan
    obtain ⟨h1, h2, _⟩ := OnPhysiologyValue_nan b pv hnan
    exact ⟨h1, h2, by unfold Bridge.submitted; rw [h2]⟩
  · intro hnan hn
    obtain ⟨h1, h2, _⟩ := OnPhysiologyValue_other b pv hnan hn
    refine ⟨?_, ?_, h2⟩
    · rw [h1, find_assign]; simp
    · intro c hc
      rw [h1, find_assign]
      simp [beq_false_of_ne c pv.name hc]

/-- Witness for C10: a NaN sim-time update on the connected initial state, and a heart-rate
update of 72. -/
theorem nan_telemetry_filtered_witness :
    ((OnPhysiologyValue { Bridge.new false with websocket_connected := true }
        ⟨"SIM_TIME", ⟨true, "nan", "nan", "nan"⟩⟩).nodeDataStorage = nodeDataStorage_init ∧
      (OnPhysiologyValue { Bridge.new false with websocket_connected := true }
        ⟨"SIM_TIME", ⟨true, "nan", "nan", "nan"⟩⟩).ws_session = websocket_session.new ∧
      (OnPhysiologyValue { Bridge.new false with websocket_connected := true }
        ⟨"SIM_TIME", ⟨true, "nan", "nan", "nan"⟩⟩).submitted = 0) ∧
    (OnPhysiologyValue (Bridge.new false)
        ⟨"Cardiovascular_HeartRate", ⟨false, "72.000000", "72.0", "72"⟩⟩).nodeDataStorage.find
          "Cardiovascular_HeartRate" = some "72.000000" :=
  ⟨(nan_telemetry_filtered { Bridge.new false with websocket_connected := true }
      ⟨"SIM_TIME", ⟨true, "nan", "nan", "nan"⟩⟩).1 rfl,
   ((nan_telemetry_filtered (Bridge.new false)
      ⟨"Cardiovascular_HeartRate", ⟨false, "72.000000", "72.0", "72"⟩⟩).2 rfl (by decide)).1⟩

/-! ## The inbound handlers -/

/-- An object without a string-valued `type` member is reported once, as an anomaly, and
the handler returns. -/
theorem onNewWebsocketMessage_object_no_type (b : Bridge) (body : String)
    (members : List (String × JsonValue))
    (h : ∀ value, List.lookup "type" members = some value → value.IsString = false) :
    onNewWebsocketMessage b body (some (JsonValue.object members))
      = Except.ok { b with log := b.log ++ [noTypeLogEntry body] } := by
  unfold onNewWebsocketMessage
  cases hl : List.lookup "type" members with
  | none =>
    simp [Document.afterParse, JsonValue.HasMember, hl, Bridge.logMsg, noTypeLogEntry]
  | some value =>
    have hv := h value hl
    simp [Document.afterParse, JsonValue.HasMember, JsonValue.member, hl, hv, Except.map,
      Bridge.logMsg, noTypeLogEntry]

/-- C11 on the code: when the payload is not valid JSON the document stays `null`, and
when it is valid JSON but not an object (an array, a number, a string, a boolean, `null`)
the document is that value; in each case `HasMember("type")` fails its `IsObject()`
assertion, so the handler does not return and writes no log record. -/
theorem inbound_non_object_fails :
    (∀ (b : Bridge) (body : String),
      onNewWebsocketMessage b body none = Except.error (Failure.assertion "IsObject()")) ∧
    (∀ (b : Bridge) (body : String) (items : List JsonValue),
      onNewWebsocketMessage b body (some (JsonValue.array items))
        = Except.error (Failure.assertion "IsObject()")) ∧
    (∀ (b : Bridge) (body : String) (text : String),
      onNewWebsocketMessage b body (some (JsonValue.number text))
        = Except.error (Failure.assertion "IsObject()")) ∧
    (∀ (b : Bridge) (body : String) (value : String),
      onNewWebsocketMessage b body (some (JsonValue.string value))
        = Except.error (Failure.assertion "IsObject()")) ∧
    (∀ (b : Bridge) (body : String) (value : Bool),
      onNewWebsocketMessage b body (some (JsonValue.bool value))
        = Except.error (Failure.assertion "IsObject()")) ∧
    (∀ (b : Bridge) (body : String),
      onNewWebsocketMessage b body (some JsonValue.null)
        = Except.error (Failure.assertion "IsObject()")) ∧
    onNewWebsocketMessage (Bridge.new false) "not json" none
      = Except.error (Failure.assertion "IsObject()") ∧
    onNewWebsocketMessage (Bridge.new false) "[1,2]"
        (some (JsonValue.array [JsonValue.number "1", JsonValue.number "2"]))
      = Except.error (Failure.assertion "IsObject()") := by
  refine ⟨?_, ?_, ?_, ?_, ?_, ?_, rfl, rfl⟩ <;> intros <;> rfl

/-- A document that fails to parse is dropped: nothing is done and nothing is logged. -/
theorem OnNewPhysiologyModification_parse_error (stod : String → Except Failure Double)
    (b : Bridge) (data : String) (doc : XMLDocument) (h : doc.errorID ≠ 0) :
    OnNewPhysiologyModification stod b data doc = Except.ok b := by
  unfold OnNewPhysiologyModification
  simp [h]

/-- A severity text that `std::stod` rejects makes the handler throw what `std::stod`
throws. -/
theorem OnNewPhysiologyModification_stod_throws (stod : String → Except Failure Double)
    (b : Bridge) (data text : String) (failure : Failure)
    (h : stod text = Except.error failure) :
    OnNewPhysiologyModification stod b data
        ⟨0, [XMLNode.element "PhysiologyModification" [("type", "AirwayObstruction")]
              [XMLNode.element "Severity" [] [XMLNode.text text]]]⟩
      = Except.error failure := by
  have ht : (to_lower "AirwayObstruction" == "airwayobstruction") = true := by decide
  simp [OnNewPhysiologyModification, FirstChildElement, XMLNode.isElementNamed,
    XMLNode.Attribute, XMLNode.children, XMLNode.GetText, List.lookup, ht, h]

/-- C12 on the code: a well-formed document whose `PhysiologyModification` element has no
`type` attribute, and documents of type `AirwayObstruction` whose `Severity` element is
missing or empty, make the handler go through a null pointer instead of returning,
whatever `std::stod` does. -/
theorem physiology_modification_fails (stod : String → Except Failure Double) (b : Bridge)
    (data : String) :
    (∀ children : List XMLNode,
      OnNewPhysiologyModification stod b data
          ⟨0, [XMLNode.element "PhysiologyModification" [] children]⟩
        = Except.error (Failure.null_pointer "std::string pmType = Attribute(\"type\")")) ∧
    OnNewPhysiologyModification stod b data
        ⟨0, [XMLNode.element "PhysiologyModification" [("type", "AirwayObstruction")] []]⟩
      = Except.error (Failure.null_pointer "FirstChildElement(\"Severity\")->ToElement()") ∧
    OnNewPhysiologyModification stod b data
        ⟨0, [XMLNode.element "PhysiologyModification" [("type", "AirwayObstruction")]
              [XMLNode.element "Severity" [] []]]⟩
      = Except.error (Failure.null_pointer "std::stod(GetText())") := by
  have ht : (to_lower "AirwayObstruction" == "airwayobstruction") = true := by decide
  refine ⟨fun children => ?_, ?_, ?_⟩ <;>
    simp [OnNewPhysiologyModification, FirstChildElement, XMLNode.isElementNamed,
      XMLNode.Attribute, XMLNode.children, XMLNode.GetText, List.lookup, ht]

/-! ## The reconnect loop -/

theorem handle_try_reconnect (b : Bridge) (e : BridgeEvent) :
    (b.handle e).try_reconnect = b.try_reconnect := by
  cases e with
  | physiologyValue pv =>
    simp only [Bridge.handle, OnPhysiologyValue]
    repeat' split
    all_goals simp [Bridge.logMsg, writePhysDataPacket]
  | tick frame =>
    simp only [Bridge.handle, OnNewTick]
    split <;> simp [Bridge.logMsg]
  | simulationControl type =>
    cases type <;> simp [Bridge.handle, OnNewSimulationControl, Bridge.logMsg]
  | handshake body =>
    simp [Bridge.handle, onWebsocketHandshake, writeTestPacket, Bridge.logMsg]

theorem handleAll_try_reconnect (es : List BridgeEvent) :
    ∀ b : Bridge, (b.handleAll es).try_reconnect = b.try_reconnect := by
  induction es with
  | nil => intro b; rfl
  | cons e es ih =>
    intro b
    simp only [Bridge.handleAll, List.foldl_cons]
    exact (ih (b.handle e)).trans (handle_try_reconnect b e)

theorem reconnectPass_steps (st : MainState) (pass : Pass) :
    (reconnectPass st pass).steps = st.steps ++ [MainStep.attempt, MainStep.delay] := by
  simp [reconnectPass]

theorem reconnectPass_flag (st : MainState) (pass : Pass) :
    (reconnectPass st pass).bridge.try_reconnect
      = (st.bridge.try_reconnect && pass.exitKey == ExitKey.not_pressed) := by
  have h := handleAll_try_reconnect pass.events
    (({ st.bridge with
        ws_session := st.bridge.ws_session.set_verbose st.bridge.verbose }).logMsg
      Severity.info "Connecting to ROS instance.")
  cases hk : pass.exitKey <;>
    first
    | (simp [reconnectPass, hk, checkForExit, Bridge.logMsg, h]; done)
    | (simp [reconnectPass, hk, checkForExit, Bridge.logMsg, h]; simpa [Bridge.logMsg] using h)

theorem passSteps_succ (n : Nat) :
    [MainStep.attempt, MainStep.delay] ++ passSteps n = passSteps (n + 1) := rfl

/-- While the flag stays set every pass is one attempt followed by one delay, and the
first pass that sees the key press is the last one: the loop exits after it. -/
theorem reconnectLoop_until_key (quiet : List Pass) :
    ∀ (st : MainState) (last : Pass) (rest : List Pass),
      Pass.allQuiet quiet = true → last.exitKey ≠ ExitKey.not_pressed →
      st.bridge.try_reconnect = true →
      ∃ st', reconnectLoop (quiet ++ last :: rest) st = some st' ∧
        st'.steps = st.steps ++ passSteps (quiet.length + 1) ∧
        st'.bridge.try_reconnect = false := by
  induction quiet with
  | nil =>
    intro st last rest _ hkey hflag
    have hf : (reconnectPass st last).bridge.try_reconnect = false := by
      rw [reconnectPass_flag, hflag]
      cases hk : last.exitKey <;> simp_all
    refine ⟨reconnectPass st last, ?_, ?_, hf⟩
    · cases rest <;> simp [reconnectLoop, hflag, hf]
    · rw [reconnectPass_steps]; rfl
  | cons pass quiet ih =>
    intro st last rest hquiet hkey hflag
    simp only [Pass.allQuiet, List.all_cons, Bool.and_eq_true, beq_iff_eq] at hquiet
    have hf : (reconnectPass st pass).bridge.try_reconnect = true := by
      rw [reconnectPass_flag, hflag, hquiet.1]; rfl
    obtain ⟨st', hrun, hsteps, hend⟩ := ih (reconnectPass st pass) last rest hquiet.2 hkey hf
    refine ⟨st', ?_, ?_, hend⟩
    · simp only [List.cons_append, reconnectLoop, hflag, if_true]
      exact hrun
    · rw [hsteps, reconnectPass_steps, List.append_assoc, passSteps_succ]
      rfl

/-- C13 on the code: when the key press arrives while `ioc.run()` blocks, the flag is
cleared and the attempt ends, and the loop then still performs the 5-second delay before
it tests the flag and exits; no further attempt is started. -/
theorem shutdown_still_delays (b : Bridge) (events : List BridgeEvent) (rest : List Pass) :
    ∃ st, reconnectLoop (⟨events, ExitKey.during_run⟩ :: rest)
        ⟨{ b with try_reconnect := true }, []⟩ = some st ∧
      st.steps = [MainStep.attempt, MainStep.delay] ∧
      st.bridge.try_reconnect = false := by
  obtain ⟨st, hrun, hsteps, hflag⟩ :=
    reconnectLoop_until_key [] ⟨{ b with try_reconnect := true }, []⟩
      ⟨events, ExitKey.during_run⟩ rest rfl (by simp) rfl
  exact ⟨st, hrun, hsteps, hflag⟩

end RosBridge
